import Mathlib

/-!
Verification of the `ne_span` span data model (`src/ne_span/ne_span.py`).

The Python module defines a polymorphic span capability `_Subspannable` with two
variants: `NEDoc` (root document, owns the full text) and `NESpan` (a character
range view `[start, end)` over an owner, which is a document or another span).
We embed the ownership chain as an inductive type, Python strings as `List Char`,
and Python slicing (with its negative-index and clamping semantics) explicitly.
Fallible operations (`TypeError`, `IndexError`, `KeyError`) return `Except`.
-/

namespace NeSpanModel

/-- Python errors raised by the module.  `indexError` carries the requested
word slice and the word count, modelling the message
`f"Word indices out of range: {word_slice}. Document has {n} words."`
which names both. `keyError` carries the missing dictionary key. -/
inductive PyError where
  | typeError (msg : String)
  | indexError (requestedStart : Option Int) (requestedStop : Option Int) (wordCount : Nat)
  | keyError (key : String)
  | attributeError (attr : String)
deriving DecidableEq, Repr

/-- A Python `slice(start, stop)` value (no step is ever passed in this module's
public interface, per the spec `subspan_by_word_indices(word_start?, word_end?)`). -/
structure PySlice where
  start : Option Int
  stop : Option Int
deriving DecidableEq, Repr

/-- The argument of `subspan`: the Python code checks `isinstance(item, slice)`
and raises `TypeError` otherwise; non-slice Python values are represented by
the remaining constructors. -/
inductive SubspanArg where
  | slice (s : PySlice)
  | intArg (i : Int)
  | strArg (s : List Char)
  | pairArg (p : Int × Int)
  | noneArg
deriving DecidableEq, Repr

/-- Normalize a Python slice index against a sequence of length `n`:
negative indices count from the end and everything is clamped into `[0, n]`. -/
def normIdx (n : Nat) (i : Int) : Nat :=
  if i < 0 then ((n : Int) + i).toNat else min i.toNat n

/-- Python string slicing `s[a:b]` for integer `a`, `b`. -/
def pySliceChars (s : List Char) (a b : Int) : List Char :=
  (s.take (normIdx s.length b)).drop (normIdx s.length a)

/-- Python list slicing `L[sl]` for a slice with optional start/stop
(`L[a?:b?]`): missing start means 0, missing stop means `len(L)`. -/
def pySliceList {α : Type} (L : List α) (sl : PySlice) : List α :=
  let en := match sl.stop with
    | none => L.length
    | some i => normIdx L.length i
  let st := match sl.start with
    | none => 0
    | some i => normIdx L.length i
  (L.take en).drop st

/-- Python `x or 0` on an `Optional[int]` (`None` and `0` are falsy). -/
def pyOrZero : Option Int → Int
  | none => 0
  | some v => if v = 0 then 0 else v

/-- The ownership chain of the span model: a root `NEDoc` holding the full
text, or an `NESpan` holding its immediate owner, `start`, `end` and optional
`label` (fields `__doc`, `__start`, `__end`, `__label` of `NESpan`). -/
inductive Subspannable where
  | doc (text : List Char)
  | span (owner : Subspannable) (start : Int) (stop : Int) (label : Option String)
deriving DecidableEq, Repr

namespace Subspannable

/-- `text` property: `NEDoc.text` returns the stored string verbatim;
`NESpan.text` is `self.__doc.text[self.__start:self.__end]`, recomputed on
access. -/
def text : Subspannable → List Char
  | .doc t => t
  | .span owner a b _ => pySliceChars owner.text a b

/-- `doc` property: `NEDoc.doc` returns itself; `NESpan.doc` returns the
immediate owner. -/
def docProp : Subspannable → Subspannable
  | .doc t => .doc t
  | .span owner _ _ _ => owner

/-- `NESpan.range` property, `(self.__start, self.__end)`; a document has no
`range` attribute (`hasattr(parent_span, "range")` is false), hence `none`. -/
def range : Subspannable → Option (Int × Int)
  | .doc _ => none
  | .span _ a b _ => some (a, b)

/-- `NESpan.label` property. -/
def label : Subspannable → Option String
  | .doc _ => none
  | .span _ _ _ l => l

end Subspannable

/-- `NESpan.__init__(doc, start, end, label)`: `self.__start = start or 0`
(Python truthiness: `0 or 0 == 0`, so identity on `int`s once `start` is an
`int`), `self.__end = end if end is not None else len(doc.text)`. -/
def NESpan.init (owner : Subspannable) (start : Int) (stop : Option Int)
    (label : Option String) : Subspannable :=
  .span owner (pyOrZero (some start)) (stop.getD (owner.text.length : Int)) label

/-- `_Subspannable.subspan(item, span_label)`: requires `item` to be a slice
(`TypeError` otherwise), resolves `start = item.start or 0`, `end = item.stop`,
and builds `NESpan(self, start, end, span_label)` with no bounds validation. -/
def subspan (self : Subspannable) (item : SubspanArg) (spanLabel : Option String) :
    Except PyError Subspannable :=
  match item with
  | .slice sl => .ok (NESpan.init self (pyOrZero sl.start) sl.stop spanLabel)
  | _ => .error (.typeError "Item must be a slice")

/-- Modelled from the spec: the tokenizer collaborator (a spacy `MultiLanguage`
tokenizer obtained by `get_tokenizer()`, external to this repository) combined
with the `__word_spans` extraction `[(token.idx, token.idx+len(token)) for token
in doc if not token.is_space]`.  Per the spec the words are the
whitespace-delimited word tokens, i.e. maximal runs of non-whitespace
characters, reported with their character start/end offsets in order.
`i` is the index of the head of the remaining list in the original text and
`st` is the start offset of the run currently being scanned, if any. -/
def wordSpansGo : List Char → Nat → Option Nat → List (Nat × Nat)
  | [], _, none => []
  | [], i, some st => [(st, i)]
  | c :: rest, i, none =>
      if c.isWhitespace then wordSpansGo rest (i + 1) none
      else wordSpansGo rest (i + 1) (some i)
  | c :: rest, i, some st =>
      if c.isWhitespace then (st, i) :: wordSpansGo rest (i + 1) none
      else wordSpansGo rest (i + 1) (some st)

/-- `_Subspannable.__word_spans`: the (start, end) character offsets of each
non-space word token of the text. -/
def wordSpans (s : List Char) : List (Nat × Nat) := wordSpansGo s 0 none

/-- `_Subspannable.word_length()`: `len(self.__word_spans)`. -/
def wordLength (self : Subspannable) : Nat := (wordSpans self.text).length

/-- `_Subspannable.subspan_by_word_indices(word_slice)`: slice the word-span
list by `word_slice`; if the selected slice is empty, raise `IndexError` when
`word_slice.start is not None and word_slice.start > len(spans)`, else use the
zero-length character range `(0, 0)`; if non-empty, use
`(word_span_slice[0][0], word_span_slice[-1][1])`; finally delegate to
`self.subspan(slice(start_char, end_char))`. -/
def subspanByWordIndices (self : Subspannable) (wordSlice : PySlice) :
    Except PyError Subspannable :=
  match pySliceList (wordSpans self.text) wordSlice with
  | [] =>
    match wordSlice.start with
    | some st =>
        if ((wordSpans self.text).length : Int) < st then
          .error (.indexError wordSlice.start wordSlice.stop (wordSpans self.text).length)
        else
          subspan self (.slice ⟨some 0, some 0⟩) none
    | none => subspan self (.slice ⟨some 0, some 0⟩) none
  | first :: rest =>
    subspan self
      (.slice ⟨some (first.1 : Int),
        some ((((first :: rest).getLast (List.cons_ne_nil first rest)).2 : Nat) : Int)⟩)
      none

/-- `NESpan.get_range_relative_to_doc` loop: starting from accumulated
`(start, end)` at `parent_span`, while the parent has a `range` attribute add
`parent_span.range[0]` to both ends and move to `parent_span.doc`. -/
def walkUp : Subspannable → Int → Int → Int × Int
  | .doc _, s, e => (s, e)
  | .span p a _ _, s, e => walkUp p (s + a) (e + a)

/-- `NESpan.get_range_relative_to_doc()`: initialize from `self.range` and walk
the ownership chain upward; only defined on spans (a document has no such
method). -/
def getRangeRelativeToDoc : Subspannable → Option (Int × Int)
  | .doc _ => none
  | .span owner a b _ => some (walkUp owner a b)

/-- `NESpan.__hash__`: `hash((self.__doc.text, self.__start, self.__end,
self.__label))`.  We model the hash by the hashed tuple itself (Python's tuple
hash is determined by, and for the purposes of this module distinguishes, the
component values).  A document defines no `__hash__` of this shape. -/
def hashKey : Subspannable → Option (List Char × Int × Int × Option String)
  | .doc _ => none
  | .span owner a b l => some (owner.text, a, b, l)

/-- The root document's text, obtained by following owners to the root. -/
def rootText : Subspannable → List Char
  | .doc t => t
  | .span owner _ _ _ => rootText owner

/-- Output of `NESpan.serialize`: `{"range": ..., "label": ...}` plus `"text"`
only when requested. -/
structure SerializedSpan where
  range : Int × Int
  label : Option String
  text : Option (List Char)
deriving DecidableEq, Repr

/-- `NESpan.serialize(with_text)`; only defined on spans. -/
def serialize : Subspannable → Bool → Option SerializedSpan
  | .doc _, _ => none
  | .span owner a b l, withText =>
      some ⟨(a, b), l, if withText then some ((Subspannable.span owner a b l).text) else none⟩

/-- The spec's Span invariant `0 <= start <= end <= len(owner.text)`, as a
decidable check (documents satisfy it vacuously). -/
def checkSpanInvariant : Subspannable → Bool
  | .doc _ => true
  | .span owner a b _ =>
      decide (0 ≤ a) && decide (a ≤ b) && decide (b ≤ (owner.text.length : Int))

/-- `class NamedEntityType(Enum)`. -/
inductive NamedEntityType where
  | PERSON
  | GROUP
  | CITATION
deriving DecidableEq, Repr

/-- The string value of each `NamedEntityType` member. -/
def NamedEntityType.value : NamedEntityType → String
  | .PERSON => "person"
  | .GROUP => "group"
  | .CITATION => "citation"

/-- `LABEL_TO_NAMED_ENTITY_TYPE_ATTR`: classifier label → attribute name of
`NamedEntityType` (Hebrew then English entries, in source order). -/
def LABEL_TO_NAMED_ENTITY_TYPE_ATTR : List (String × String) :=
  [("מקור", "CITATION"),
   ("בן-אדם", "PERSON"),
   ("קבוצה", "GROUP"),
   ("Person", "PERSON"),
   ("Group", "GROUP"),
   ("Citation", "CITATION")]

/-- `getattr(NamedEntityType, a)` restricted to member names (any other
attribute access would raise `AttributeError`, modelled by `none`). -/
def NamedEntityType.getattr : String → Option NamedEntityType
  | "PERSON" => some .PERSON
  | "GROUP" => some .GROUP
  | "CITATION" => some .CITATION
  | _ => none

/-- `NamedEntityType.span_label_to_enum`: dictionary lookup (a missing key
raises `KeyError`) followed by `getattr`. -/
def NamedEntityType.spanLabelToEnum (spanLabel : String) : Except PyError NamedEntityType :=
  match LABEL_TO_NAMED_ENTITY_TYPE_ATTR.lookup spanLabel with
  | none => .error (.keyError spanLabel)
  | some attr =>
    match NamedEntityType.getattr attr with
    | some m => .ok m
    | none => .error (.attributeError attr)

/-- `class RefPartType(Enum)`. -/
inductive RefPartType where
  | NAMED
  | NUMBERED
  | DH
  | RANGE_SYMBOL
  | RANGE
  | RELATIVE
  | IBID
  | NON_CTS
deriving DecidableEq, Repr

/-- The string value of each `RefPartType` member. -/
def RefPartType.value : RefPartType → String
  | .NAMED => "named"
  | .NUMBERED => "numbered"
  | .DH => "dibur_hamatchil"
  | .RANGE_SYMBOL => "range_symbol"
  | .RANGE => "range"
  | .RELATIVE => "relative"
  | .IBID => "ibid"
  | .NON_CTS => "non_cts"

/-- `LABEL_TO_REF_PART_TYPE_ATTR`: classifier label → attribute name of
`RefPartType` (Hebrew then English entries, in source order). -/
def LABEL_TO_REF_PART_TYPE_ATTR : List (String × String) :=
  [("כותרת", "NAMED"),
   ("מספר", "NUMBERED"),
   ("דה", "DH"),
   ("סימן-טווח", "RANGE_SYMBOL"),
   ("לקמן-להלן", "RELATIVE"),
   ("שם", "IBID"),
   ("לא-רציף", "NON_CTS"),
   ("title", "NAMED"),
   ("number", "NUMBERED"),
   ("DH", "DH"),
   ("range-symbol", "RANGE_SYMBOL"),
   ("dir-ibid", "RELATIVE"),
   ("ibid", "IBID"),
   ("non-cts", "NON_CTS")]

/-- `getattr(RefPartType, a)` restricted to member names. -/
def RefPartType.getattr : String → Option RefPartType
  | "NAMED" => some .NAMED
  | "NUMBERED" => some .NUMBERED
  | "DH" => some .DH
  | "RANGE_SYMBOL" => some .RANGE_SYMBOL
  | "RANGE" => some .RANGE
  | "RELATIVE" => some .RELATIVE
  | "IBID" => some .IBID
  | "NON_CTS" => some .NON_CTS
  | _ => none

/-- `RefPartType.span_label_to_enum`: dictionary lookup followed by `getattr`. -/
def RefPartType.spanLabelToEnum (spanLabel : String) : Except PyError RefPartType :=
  match LABEL_TO_REF_PART_TYPE_ATTR.lookup spanLabel with
  | none => .error (.keyError spanLabel)
  | some attr =>
    match RefPartType.getattr attr with
    | some m => .ok m
    | none => .error (.attributeError attr)

end NeSpanModel

namespace NeSpanModel

lemma pyOrZero_some (v : Int) : pyOrZero (some v) = v := by
  unfold pyOrZero
  split <;> simp_all

lemma subspan_slice_eq (self : Subspannable) (a b : Int) (lbl : Option String) :
    subspan self (.slice ⟨some a, some b⟩) lbl = .ok (.span self a b lbl) := by
  simp [subspan, NESpan.init, pyOrZero_some]

lemma subspan_ok_owner (self : Subspannable) (item : SubspanArg) (lbl : Option String)
    (S : Subspannable) (h : subspan self item lbl = .ok S) : S.docProp = self := by
  cases item with
  | slice sl =>
      simp only [subspan, NESpan.init, Except.ok.injEq] at h
      subst h
      rfl
  | intArg i => simp [subspan] at h
  | strArg s => simp [subspan] at h
  | pairArg p => simp [subspan] at h
  | noneArg => simp [subspan] at h

lemma normIdx_of_nonneg (n : Nat) (i : Int) (h : 0 ≤ i) :
    normIdx n i = min i.toNat n := by
  unfold normIdx
  rw [if_neg (by omega)]

/-- C1: for `S1 = D.subspan([a,b))`, `S2 = S1.subspan([c,d))` and
`S3 = S2.subspan([e,f))`, `get_range_relative_to_doc` returns `(a, b)` for the
span built directly over the Document (the upward walk terminates at the
Document and leaves the range unchanged), `(a+c, a+d)` at depth two, and the
accumulated `(a+c+e, a+c+f)` at depth three. -/
theorem C1_offset_accumulation (t : List Char) (a b c d e f : Int)
    (S1 S2 S3 : Subspannable)
    (h1 : subspan (.doc t) (.slice ⟨some a, some b⟩) none = .ok S1)
    (h2 : subspan S1 (.slice ⟨some c, some d⟩) none = .ok S2)
    (h3 : subspan S2 (.slice ⟨some e, some f⟩) none = .ok S3) :
    getRangeRelativeToDoc S1 = some (a, b) ∧
    getRangeRelativeToDoc S2 = some (a + c, a + d) ∧
    getRangeRelativeToDoc S3 = some (a + c + e, a + c + f) := by
  rw [subspan_slice_eq] at h1 h2 h3
  injection h1 with h1
  subst h1
  injection h2 with h2
  subst h2
  injection h3 with h3
  subst h3
  refine ⟨rfl, ?_, ?_⟩ <;>
    · simp only [getRangeRelativeToDoc, walkUp, Option.some.injEq, Prod.mk.injEq]
      omega

theorem C1_offset_accumulation_witness :
    getRangeRelativeToDoc
      (.span (.span (.span (.doc ['a','b','c','d','e','f','g','h']) 1 7 none) 2 5 none)
        1 2 none) = some (1 + 2 + 1, 1 + 2 + 2) :=
  (C1_offset_accumulation ['a','b','c','d','e','f','g','h'] 1 7 2 5 1 2 _ _ _
    (subspan_slice_eq _ 1 7 none) (subspan_slice_eq _ 2 5 none)
    (subspan_slice_eq _ 1 2 none)).2.2

/-- C5: `subspan` performs no bounds validation — for every integer pair it
succeeds and returns the span with exactly the requested offsets — and the
span's `text` is always the owner's text Python-sliced by `[start, end)`; in
particular a start at or past the end of the owner's text reads as empty and
an end past the owner's text truncates to a suffix read. -/
theorem C5_no_bounds_validation (self : Subspannable) (a b : Int) (lbl : Option String) :
    subspan self (.slice ⟨some a, some b⟩) lbl = .ok (.span self a b lbl) ∧
    (Subspannable.span self a b lbl).text = pySliceChars self.text a b ∧
    (0 ≤ a → (self.text.length : Int) ≤ a → (Subspannable.span self a b lbl).text = []) ∧
    (0 ≤ a → a ≤ (self.text.length : Int) → (self.text.length : Int) ≤ b →
      (Subspannable.span self a b lbl).text = self.text.drop a.toNat) := by
  refine ⟨subspan_slice_eq self a b lbl, rfl, ?_, ?_⟩
  · intro ha hlen
    show pySliceChars self.text a b = []
    unfold pySliceChars
    rw [normIdx_of_nonneg _ a ha]
    have hmin : min a.toNat self.text.length = self.text.length := by omega
    rw [hmin]
    exact List.drop_eq_nil_of_le (by simp [List.length_take])
  · intro ha hab hb
    show pySliceChars self.text a b = self.text.drop a.toNat
    unfold pySliceChars
    rw [normIdx_of_nonneg _ a ha, normIdx_of_nonneg _ b (by omega)]
    have hb' : min b.toNat self.text.length = self.text.length := by omega
    have ha' : min a.toNat self.text.length = a.toNat := by omega
    rw [hb', ha', List.take_length]

theorem C5_no_bounds_validation_witness :
    subspan (.doc ['a','b','c']) (.slice ⟨some 10, some 20⟩) none
      = .ok (.span (.doc ['a','b','c']) 10 20 none) ∧
    (Subspannable.span (.doc ['a','b','c']) 10 20 none).text = [] ∧
    (Subspannable.span (.doc ['a','b','c']) 1 20 none).text = ['b','c'] := by
  obtain ⟨h1, _, h3, _⟩ := C5_no_bounds_validation (.doc ['a','b','c']) 10 20 none
  obtain ⟨_, _, _, h4⟩ := C5_no_bounds_validation (.doc ['a','b','c']) 1 20 none
  exact ⟨h1, h3 (by decide) (by decide), by rw [h4 (by decide) (by decide) (by decide)]; rfl⟩

/-- C7: `serialize` emits the immediate-owner-relative `(start, end)` range and
the span's label, includes the text field exactly when requested, and the text
field equals the owner's text sliced by the emitted range (round-trip). -/
theorem C7_serialize_roundtrip (owner : Subspannable) (a b : Int) (l : Option String) :
    serialize (.span owner a b l) true
      = some ⟨(a, b), l, some (pySliceChars owner.text a b)⟩ ∧
    serialize (.span owner a b l) false = some ⟨(a, b), l, none⟩ ∧
    Subspannable.range (.span owner a b l) = some (a, b) ∧
    Subspannable.label (.span owner a b l) = l ∧
    pySliceChars owner.text a b = (Subspannable.span owner a b l).text :=
  ⟨rfl, rfl, rfl, rfl, rfl⟩

/-- C8: `subspan` rejects every argument that is not a slice with
`TypeError("Item must be a slice")`. -/
theorem C8_subspan_type_error (self : Subspannable) (item : SubspanArg)
    (lbl : Option String) (h : ∀ sl : PySlice, item ≠ .slice sl) :
    subspan self item lbl = .error (.typeError "Item must be a slice") := by
  cases item with
  | slice sl => exact absurd rfl (h sl)
  | intArg i => rfl
  | strArg s => rfl
  | pairArg p => rfl
  | noneArg => rfl

theorem C8_subspan_type_error_witness :
    subspan (.doc ['a']) (.intArg 3) none = .error (.typeError "Item must be a slice") :=
  C8_subspan_type_error (.doc ['a']) (.intArg 3) none (by intro sl hcontra; cases hcontra)

end NeSpanModel

namespace NeSpanModel

lemma subspan_ok_shape (self : Subspannable) (item : SubspanArg) (lbl : Option String)
    (S : Subspannable) (h : subspan self item lbl = .ok S) :
    S.docProp = self ∧ ∃ a b, S.range = some (a, b) := by
  cases item with
  | slice sl =>
      simp only [subspan, NESpan.init, Except.ok.injEq] at h
      subst h
      exact ⟨rfl, _, _, rfl⟩
  | intArg i => simp [subspan] at h
  | strArg s => simp [subspan] at h
  | pairArg p => simp [subspan] at h
  | noneArg => simp [subspan] at h

/-- C9: every span returned by `subspan` or `subspan_by_word_indices` has the
receiver as its immediate owner (`result.doc` is the object the method was
called on), and carries a `(start, end)` range — so that range is expressed in
the receiver's own text coordinates; this holds for every receiver, hence at
every nesting depth. -/
theorem C9_owner_is_receiver (self : Subspannable) :
    (∀ (sl : PySlice) (lbl : Option String) (S : Subspannable),
      subspan self (.slice sl) lbl = .ok S →
      S.docProp = self ∧ ∃ a b, S.range = some (a, b)) ∧
    (∀ (ws : PySlice) (S : Subspannable),
      subspanByWordIndices self ws = .ok S →
      S.docProp = self ∧ ∃ a b, S.range = some (a, b)) := by
  constructor
  · intro sl lbl S h
    exact subspan_ok_shape self (.slice sl) lbl S h
  · intro ws S h
    unfold subspanByWordIndices at h
    split at h
    · split at h
      · split at h
        · exact absurd h (by simp)
        · exact subspan_ok_shape self _ _ S h
      · exact subspan_ok_shape self _ _ S h
    · exact subspan_ok_shape self _ _ S h

theorem C9_owner_is_receiver_witness :
    Subspannable.docProp (.span (.doc ['a','b']) 0 1 none) = .doc ['a','b'] ∧
    Subspannable.range (.span (.doc ['a','b']) 0 1 none) = some (0, 1) :=
  ⟨((C9_owner_is_receiver (.doc ['a','b'])).1 ⟨some 0, some 1⟩ none
      (.span (.doc ['a','b']) 0 1 none) (subspan_slice_eq _ 0 1 none)).1,
   rfl⟩

/-- C2 fails as stated: `NESpan.__hash__` hashes the *immediate owner's* text,
not the root document's text.  Here `T1` and `T2` are built through the public
interface from the same 6-character document, share the same root document
text, the same `(start, end) = (0, 1)` relative to their immediate owner, and
the same (absent) label, yet their hash inputs differ because their immediate
owners' texts differ. -/
theorem C2_counterexample :
    subspan (Subspannable.doc ['a','b','c','d','e','f']) (.slice ⟨some 0, some 3⟩) none
      = .ok (.span (.doc ['a','b','c','d','e','f']) 0 3 none) ∧
    subspan (Subspannable.doc ['a','b','c','d','e','f']) (.slice ⟨some 3, some 6⟩) none
      = .ok (.span (.doc ['a','b','c','d','e','f']) 3 6 none) ∧
    subspan (Subspannable.span (.doc ['a','b','c','d','e','f']) 0 3 none)
        (.slice ⟨some 0, some 1⟩) none
      = .ok (.span (.span (.doc ['a','b','c','d','e','f']) 0 3 none) 0 1 none) ∧
    subspan (Subspannable.span (.doc ['a','b','c','d','e','f']) 3 6 none)
        (.slice ⟨some 0, some 1⟩) none
      = .ok (.span (.span (.doc ['a','b','c','d','e','f']) 3 6 none) 0 1 none) ∧
    rootText (.span (.span (.doc ['a','b','c','d','e','f']) 0 3 none) 0 1 none)
      = rootText (.span (.span (.doc ['a','b','c','d','e','f']) 3 6 none) 0 1 none) ∧
    Subspannable.range (.span (.span (.doc ['a','b','c','d','e','f']) 0 3 none) 0 1 none)
      = Subspannable.range (.span (.span (.doc ['a','b','c','d','e','f']) 3 6 none) 0 1 none) ∧
    Subspannable.label (.span (.span (.doc ['a','b','c','d','e','f']) 0 3 none) 0 1 none)
      = Subspannable.label (.span (.span (.doc ['a','b','c','d','e','f']) 3 6 none) 0 1 none) ∧
    hashKey (.span (.span (.doc ['a','b','c','d','e','f']) 0 3 none) 0 1 none)
      ≠ hashKey (.span (.span (.doc ['a','b','c','d','e','f']) 3 6 none) 0 1 none) := by
  refine ⟨subspan_slice_eq _ 0 3 none, subspan_slice_eq _ 3 6 none,
    subspan_slice_eq _ 0 1 none, subspan_slice_eq _ 0 1 none, rfl, rfl, rfl, ?_⟩
  decide

/-- C2 amended: two Spans are hash-equal iff they share the same *immediate
owner's* text, the same `(start, end)` relative to that owner, and the same
label.  In particular two spans built identically over the same document are
hash-equal, and changing only the label changes the hash. -/
theorem C2_hash_amended :
    (∀ (o1 o2 : Subspannable) (a1 b1 a2 b2 : Int) (l1 l2 : Option String),
      hashKey (.span o1 a1 b1 l1) = hashKey (.span o2 a2 b2 l2) ↔
        (o1.text = o2.text ∧ a1 = a2 ∧ b1 = b2 ∧ l1 = l2)) ∧
    (∀ (t : List Char) (a b : Int) (l : Option String),
      hashKey (.span (.doc t) a b l) = hashKey (.span (.doc t) a b l)) ∧
    (∀ (o : Subspannable) (a b : Int) (l1 l2 : Option String), l1 ≠ l2 →
      hashKey (.span o a b l1) ≠ hashKey (.span o a b l2)) := by
  refine ⟨?_, fun t a b l => rfl, ?_⟩
  · intro o1 o2 a1 b1 a2 b2 l1 l2
    simp [hashKey]
  · intro o a b l1 l2 hne h
    simp only [hashKey, Option.some.injEq, Prod.mk.injEq] at h
    exact hne h.2.2.2

theorem C2_hash_amended_witness :
    hashKey (.span (.doc ['x']) 0 1 (some "Person")) ≠
      hashKey (.span (.doc ['x']) 0 1 (some "Group")) :=
  C2_hash_amended.2.2 (.doc ['x']) 0 1 (some "Person") (some "Group") (by decide)

end NeSpanModel

namespace NeSpanModel

/-- C6: for both enums, `span_label_to_enum` maps every key of its mapping
table to the corresponding enum member (the member whose attribute name is the
table's value) — in particular `"Citation"` and `"מקור"` both map to
`CITATION` — and for every string that is not a key of the table it raises a
`KeyError` naming that string, which propagates: no default member is ever
substituted. -/
theorem C6_label_lookup :
    NamedEntityType.spanLabelToEnum "Citation" = .ok .CITATION ∧
    NamedEntityType.spanLabelToEnum "מקור" = .ok .CITATION ∧
    (∀ i : Fin LABEL_TO_NAMED_ENTITY_TYPE_ATTR.length,
      ∃ m : NamedEntityType,
        NamedEntityType.getattr (LABEL_TO_NAMED_ENTITY_TYPE_ATTR.get i).2 = some m ∧
        NamedEntityType.spanLabelToEnum (LABEL_TO_NAMED_ENTITY_TYPE_ATTR.get i).1 = .ok m) ∧
    (∀ i : Fin LABEL_TO_REF_PART_TYPE_ATTR.length,
      ∃ m : RefPartType,
        RefPartType.getattr (LABEL_TO_REF_PART_TYPE_ATTR.get i).2 = some m ∧
        RefPartType.spanLabelToEnum (LABEL_TO_REF_PART_TYPE_ATTR.get i).1 = .ok m) ∧
    (∀ s : String, LABEL_TO_NAMED_ENTITY_TYPE_ATTR.lookup s = none →
      NamedEntityType.spanLabelToEnum s = .error (.keyError s)) ∧
    (∀ s : String, LABEL_TO_REF_PART_TYPE_ATTR.lookup s = none →
      RefPartType.spanLabelToEnum s = .error (.keyError s)) := by
  refine ⟨rfl, rfl, by intro i; fin_cases i <;> exact ⟨_, rfl, rfl⟩,
    by intro i; fin_cases i <;> exact ⟨_, rfl, rfl⟩, ?_, ?_⟩
  · intro s h
    unfold NamedEntityType.spanLabelToEnum
    rw [h]
  · intro s h
    unfold RefPartType.spanLabelToEnum
    rw [h]

theorem C6_label_lookup_witness :
    NamedEntityType.spanLabelToEnum "unknown-xyz" = .error (.keyError "unknown-xyz") :=
  C6_label_lookup.2.2.2.2.1 "unknown-xyz" (by decide)

end NeSpanModel

namespace NeSpanModel

/-- C3: whenever the selected word-range list is empty,
`subspan_by_word_indices` raises the out-of-range `IndexError` — carrying the
requested indices and the document's word count — iff the slice's start is
specified and exceeds the total word count; in every other empty case it
returns a zero-length span with range `(0, 0)`, not an error. -/
theorem C3_word_index_error (self : Subspannable) (ws : PySlice)
    (hempty : pySliceList (wordSpans self.text) ws = []) :
    (∀ st : Int, ws.start = some st → ((wordSpans self.text).length : Int) < st →
      subspanByWordIndices self ws
        = .error (.indexError ws.start ws.stop (wordSpans self.text).length)) ∧
    ((ws.start = none ∨
        ∃ st : Int, ws.start = some st ∧ st ≤ ((wordSpans self.text).length : Int)) →
      subspanByWordIndices self ws = .ok (.span self 0 0 none) ∧
      Subspannable.range (.span self 0 0 none) = some (0, 0)) := by
  constructor
  · intro st hst hlt
    unfold subspanByWordIndices
    rw [hempty, hst]
    simp only
    rw [if_pos hlt]
  · rintro (hnone | ⟨st, hst, hle⟩)
    · refine ⟨?_, rfl⟩
      unfold subspanByWordIndices
      rw [hempty, hnone]
      simp only
      exact subspan_slice_eq self 0 0 none
    · refine ⟨?_, rfl⟩
      unfold subspanByWordIndices
      rw [hempty, hst]
      simp only
      rw [if_neg (by omega)]
      exact subspan_slice_eq self 0 0 none

theorem C3_word_index_error_witness :
    subspanByWordIndices (.doc ['a','b',' ','c','d',' ','e','f']) ⟨some 5, none⟩
      = .error (.indexError (some 5) none 3) ∧
    subspanByWordIndices (.doc ['a','b',' ','c','d',' ','e','f']) ⟨some 2, some 2⟩
      = .ok (.span (.doc ['a','b',' ','c','d',' ','e','f']) 0 0 none) := by
  constructor
  · exact (C3_word_index_error (.doc ['a','b',' ','c','d',' ','e','f']) ⟨some 5, none⟩
      (by decide)).1 5 rfl (by decide)
  · exact ((C3_word_index_error (.doc ['a','b',' ','c','d',' ','e','f']) ⟨some 2, some 2⟩
      (by decide)).2 (Or.inr ⟨2, rfl, by decide⟩)).1

end NeSpanModel

namespace NeSpanModel

lemma head_of_eq {α : Type} {l1 l2 : List α} (h : l1 = l2) (h1 : l1 ≠ []) (h2 : l2 ≠ []) :
    l1.head h1 = l2.head h2 := by
  subst h
  rfl

lemma getLast_of_eq {α : Type} {l1 l2 : List α} (h : l1 = l2) (h1 : l1 ≠ []) (h2 : l2 ≠ []) :
    l1.getLast h1 = l2.getLast h2 := by
  subst h
  rfl

lemma drop_length_sub_one {α : Type} (L : List α) (h : L ≠ []) :
    L.drop (L.length - 1) = [L.getLast h] := by
  induction L with
  | nil => exact absurd rfl h
  | cons a t ih =>
    cases t with
    | nil => rfl
    | cons b t' =>
      rw [List.getLast_cons (List.cons_ne_nil b t')]
      have step : (a :: b :: t').drop ((a :: b :: t').length - 1)
          = (b :: t').drop ((b :: t').length - 1) := by
        simp [List.length_cons]
      rw [step, ih (List.cons_ne_nil b t')]

lemma subspanByWordIndices_nonempty (self : Subspannable) (ws : PySlice)
    (h : pySliceList (wordSpans self.text) ws ≠ []) :
    subspanByWordIndices self ws = subspan self
      (.slice ⟨some ((((pySliceList (wordSpans self.text) ws).head h).1 : Nat) : Int),
        some ((((pySliceList (wordSpans self.text) ws).getLast h).2 : Nat) : Int)⟩) none := by
  unfold subspanByWordIndices
  revert h
  cases hsl : pySliceList (wordSpans self.text) ws with
  | nil => intro h; exact absurd rfl h
  | cons first rest => intro h; rfl

/-- C10: the out-of-range check fires only for a start strictly greater than
the word count — a start exactly equal to the word count returns the
zero-length span without error, and a negative start never raises; the word
list is sliced with Python negative-index semantics, so `slice(-1, None)`
yields the span of the last word and `slice(-k, None)` with `k` greater than
the word count yields the span covering all words (first word's start to last
word's end). -/
theorem C10_word_slice_negative (self : Subspannable) :
    (∀ (ws : PySlice) (st : Int), ws.start = some st → st < 0 →
      ∃ S, subspanByWordIndices self ws = .ok S) ∧
    (subspanByWordIndices self ⟨some ((wordSpans self.text).length : Int), none⟩
      = .ok (.span self 0 0 none)) ∧
    (∀ h : wordSpans self.text ≠ [],
      subspanByWordIndices self ⟨some (-1), none⟩
        = .ok (.span self ((((wordSpans self.text).getLast h).1 : Nat) : Int)
            ((((wordSpans self.text).getLast h).2 : Nat) : Int) none)) ∧
    (∀ k : Nat, ((wordSpans self.text).length : Int) < (k : Int) →
      ∀ h : wordSpans self.text ≠ [],
      subspanByWordIndices self ⟨some (-(k : Int)), none⟩
        = .ok (.span self ((((wordSpans self.text).head h).1 : Nat) : Int)
            ((((wordSpans self.text).getLast h).2 : Nat) : Int) none)) := by
  refine ⟨?_, ?_, ?_, ?_⟩
  · intro ws st hst hneg
    cases hsl : pySliceList (wordSpans self.text) ws with
    | nil =>
      refine ⟨.span self 0 0 none, ?_⟩
      unfold subspanByWordIndices
      rw [hsl, hst]
      simp only
      rw [if_neg (by omega)]
      exact subspan_slice_eq self 0 0 none
    | cons first rest =>
      have h : pySliceList (wordSpans self.text) ws ≠ [] := by
        rw [hsl]; exact List.cons_ne_nil first rest
      exact ⟨_, subspanByWordIndices_nonempty self ws h ▸ subspan_slice_eq self _ _ none⟩
  · have hempty : pySliceList (wordSpans self.text)
        ⟨some ((wordSpans self.text).length : Int), none⟩ = [] := by
      unfold pySliceList
      simp only
      rw [normIdx_of_nonneg _ _ (by positivity)]
      simp [List.take_length]
    unfold subspanByWordIndices
    rw [hempty]
    simp only
    rw [if_neg (by omega)]
    exact subspan_slice_eq self 0 0 none
  · intro h
    have hn : 1 ≤ (wordSpans self.text).length := List.length_pos.mpr h
    have hsl : pySliceList (wordSpans self.text) ⟨some (-1), none⟩
        = [(wordSpans self.text).getLast h] := by
      unfold pySliceList
      simp only
      unfold normIdx
      rw [if_pos (by omega)]
      have hst : (((wordSpans self.text).length : Int) + (-1)).toNat
          = (wordSpans self.text).length - 1 := by omega
      rw [hst, List.take_length]
      exact drop_length_sub_one (wordSpans self.text) h
    have h' : pySliceList (wordSpans self.text) ⟨some (-1), none⟩ ≠ [] := by
      rw [hsl]; exact List.cons_ne_nil _ _
    rw [subspanByWordIndices_nonempty self _ h',
      head_of_eq hsl h' (List.cons_ne_nil _ _), getLast_of_eq hsl h' (List.cons_ne_nil _ _)]
    exact subspan_slice_eq self _ _ none
  · intro k hk h
    have hsl : pySliceList (wordSpans self.text) ⟨some (-(k : Int)), none⟩
        = wordSpans self.text := by
      unfold pySliceList
      simp only
      unfold normIdx
      rw [if_pos (by omega)]
      have hz : (((wordSpans self.text).length : Int) + (-(k : Int))).toNat = 0 := by omega
      rw [hz, List.take_length, List.drop_zero]
    have h' : pySliceList (wordSpans self.text) ⟨some (-(k : Int)), none⟩ ≠ [] := by
      rw [hsl]; exact h
    rw [subspanByWordIndices_nonempty self _ h',
      head_of_eq hsl h' h, getLast_of_eq hsl h' h]
    exact subspan_slice_eq self _ _ none

theorem C10_word_slice_negative_witness :
    (∃ S, subspanByWordIndices (.doc ['a','b',' ','c','d',' ','e','f']) ⟨some (-1), some 0⟩
      = .ok S) ∧
    subspanByWordIndices (.doc ['a','b',' ','c','d',' ','e','f']) ⟨some 3, none⟩
      = .ok (.span (.doc ['a','b',' ','c','d',' ','e','f']) 0 0 none) ∧
    subspanByWordIndices (.doc ['a','b',' ','c','d',' ','e','f']) ⟨some (-1), none⟩
      = .ok (.span (.doc ['a','b',' ','c','d',' ','e','f']) 6 8 none) ∧
    subspanByWordIndices (.doc ['a','b',' ','c','d',' ','e','f']) ⟨some (-7), none⟩
      = .ok (.span (.doc ['a','b',' ','c','d',' ','e','f']) 0 8 none) := by
  refine ⟨(C10_word_slice_negative (.doc ['a','b',' ','c','d',' ','e','f'])).1
      ⟨some (-1), some 0⟩ (-1) rfl (by decide),
    (C10_word_slice_negative (.doc ['a','b',' ','c','d',' ','e','f'])).2.1,
    (C10_word_slice_negative (.doc ['a','b',' ','c','d',' ','e','f'])).2.2.1 (by decide),
    (C10_word_slice_negative (.doc ['a','b',' ','c','d',' ','e','f'])).2.2.2 7 (by decide)
      (by decide)⟩

end NeSpanModel

namespace NeSpanModel

lemma wordSpansGo_bounds :
    ∀ (l : List Char) (i : Nat) (st : Option Nat), (∀ v, st = some v → v ≤ i) →
      ∀ p ∈ wordSpansGo l i st, (st.getD i) ≤ p.1 ∧ p.1 ≤ p.2 ∧ p.2 ≤ i + l.length := by
  intro l
  induction l with
  | nil =>
    intro i st hst p hp
    cases st with
    | none => simp [wordSpansGo] at hp
    | some v =>
      simp only [wordSpansGo, List.mem_singleton] at hp
      subst hp
      exact ⟨le_refl v, hst v rfl, by simp⟩
  | cons c rest ih =>
    intro i st hst p hp
    cases st with
    | none =>
      simp only [wordSpansGo] at hp
      split at hp
      · have := ih (i + 1) none (by simp) p hp
        simp only [Option.getD_none] at this ⊢
        simp only [List.length_cons]
        omega
      · have := ih (i + 1) (some i) (by intro v hv; injection hv with hv; omega) p hp
        simp only [Option.getD_some, Option.getD_none] at this ⊢
        simp only [List.length_cons]
        omega
    | some v =>
      simp only [wordSpansGo] at hp
      split at hp
      · rcases List.mem_cons.mp hp with hpv | hpr
        · subst hpv
          exact ⟨le_refl v, hst v rfl, by simp⟩
        · have hvi := hst v rfl
          have := ih (i + 1) none (by simp) p hpr
          simp only [Option.getD_none, Option.getD_some] at this ⊢
          simp only [List.length_cons]
          omega
      · have := ih (i + 1) (some v)
          (by intro w hw; injection hw with hw; subst hw; have := hst v rfl; omega) p hp
        simp only [Option.getD_some] at this ⊢
        simp only [List.length_cons]
        omega

lemma wordSpansGo_pairwise :
    ∀ (l : List Char) (i : Nat) (st : Option Nat), (∀ v, st = some v → v ≤ i) →
      (wordSpansGo l i st).Pairwise (fun p q => p.2 ≤ q.1) := by
  intro l
  induction l with
  | nil =>
    intro i st hst
    cases st <;> simp [wordSpansGo]
  | cons c rest ih =>
    intro i st hst
    cases st with
    | none =>
      simp only [wordSpansGo]
      split
      · exact ih (i + 1) none (by simp)
      · exact ih (i + 1) (some i) (by intro v hv; injection hv with hv; omega)
    | some v =>
      simp only [wordSpansGo]
      split
      · refine List.Pairwise.cons ?_ (ih (i + 1) none (by simp))
        intro q hq
        have := wordSpansGo_bounds rest (i + 1) none (by simp) q hq
        simp only [Option.getD_none] at this
        omega
      · exact ih (i + 1) (some v)
          (by intro w hw; injection hw with hw; subst hw; have := hst v rfl; omega)

lemma wordSpans_bounds (s : List Char) :
    ∀ p ∈ wordSpans s, p.1 ≤ p.2 ∧ p.2 ≤ s.length := by
  intro p hp
  have := wordSpansGo_bounds s 0 none (by simp) p hp
  exact ⟨this.2.1, by omega⟩

lemma wordSpans_pairwise (s : List Char) :
    (wordSpans s).Pairwise (fun p q => p.2 ≤ q.1) :=
  wordSpansGo_pairwise s 0 none (by simp)

lemma pySliceList_sublist {α : Type} (L : List α) (sl : PySlice) :
    (pySliceList L sl).Sublist L := by
  unfold pySliceList
  exact (List.drop_sublist _ _).trans (List.take_sublist _ _)

lemma head_fst_le_getLast_snd :
    ∀ (M : List (Nat × Nat)) (h : M ≠ []),
      M.Pairwise (fun p q => p.2 ≤ q.1) → (∀ p ∈ M, p.1 ≤ p.2) →
      (M.head h).1 ≤ (M.getLast h).2 := by
  intro M
  induction M with
  | nil => intro h; exact absurd rfl h
  | cons a t ih =>
    intro h hpw helem
    cases t with
    | nil => exact helem a (List.mem_singleton.mpr rfl)
    | cons b t' =>
      have h2 : (b :: t') ≠ [] := List.cons_ne_nil b t'
      have hstep : a.2 ≤ b.1 := (List.pairwise_cons.mp hpw).1 b (List.mem_cons_self b t')
      have hrec : ((b :: t').head h2).1 ≤ ((b :: t').getLast h2).2 :=
        ih h2 (List.pairwise_cons.mp hpw).2
          (fun p hp => helem p (List.mem_cons_of_mem a hp))
      rw [List.getLast_cons h2]
      have ha : a.1 ≤ a.2 := helem a (List.mem_cons_self a (b :: t'))
      simp only [List.head_cons] at hrec ⊢
      omega

lemma subspanByWordIndices_invariant (self : Subspannable) (ws : PySlice)
    (S : Subspannable) (h : subspanByWordIndices self ws = .ok S) :
    checkSpanInvariant S = true := by
  by_cases hsl : pySliceList (wordSpans self.text) ws = []
  · unfold subspanByWordIndices at h
    rw [hsl] at h
    simp only at h
    cases hst : ws.start with
    | none =>
      rw [hst] at h
      simp only at h
      rw [subspan_slice_eq] at h
      injection h with h
      subst h
      simp [checkSpanInvariant]
    | some st =>
      rw [hst] at h
      simp only at h
      split at h
      · exact absurd h (by simp)
      · rw [subspan_slice_eq] at h
        injection h with h
        subst h
        simp [checkSpanInvariant]
  · rw [subspanByWordIndices_nonempty self ws hsl, subspan_slice_eq] at h
    injection h with h
    subst h
    have hsub : (pySliceList (wordSpans self.text) ws).Sublist (wordSpans self.text) :=
      pySliceList_sublist _ _
    have hpw : (pySliceList (wordSpans self.text) ws).Pairwise (fun p q => p.2 ≤ q.1) :=
      (wordSpans_pairwise self.text).sublist hsub
    have helem : ∀ p ∈ pySliceList (wordSpans self.text) ws, p.1 ≤ p.2 :=
      fun p hp => (wordSpans_bounds self.text p (hsub.mem hp)).1
    have hhl : ((pySliceList (wordSpans self.text) ws).head hsl).1
        ≤ ((pySliceList (wordSpans self.text) ws).getLast hsl).2 :=
      head_fst_le_getLast_snd _ hsl hpw helem
    have hlast : ((pySliceList (wordSpans self.text) ws).getLast hsl).2
        ≤ self.text.length :=
      (wordSpans_bounds self.text _ (hsub.mem (List.getLast_mem hsl))).2
    simp only [checkSpanInvariant, Bool.and_eq_true, decide_eq_true_eq]
    refine ⟨⟨by positivity, ?_⟩, ?_⟩ <;> exact_mod_cast by omega

/-- C4 fails as stated: `subspan` performs no validation, so a Span reachable
through the public interface can violate `0 <= start <= end <= len(owner.text)`
— here a span with range `(-1, 100)` over a 3-character document. -/
theorem C4_counterexample :
    subspan (Subspannable.doc ['a','b','c']) (.slice ⟨some (-1), some 100⟩) none
      = .ok (.span (.doc ['a','b','c']) (-1) 100 none) ∧
    Subspannable.range (.span (.doc ['a','b','c']) (-1) 100 none) = some (-1, 100) ∧
    checkSpanInvariant (.span (.doc ['a','b','c']) (-1) 100 none) = false := by
  exact ⟨subspan_slice_eq _ (-1) 100 none, rfl, by decide⟩

/-- C4 amended: a Span constructed via `subspan` satisfies the invariant
`0 <= start <= end <= len(owner.text)` provided the requested offsets already
satisfy those bounds (or are omitted, defaulting to the full text), and every
Span returned by `subspan_by_word_indices` satisfies the invariant; `subspan`
itself never checks the bounds. -/
theorem C4_invariant_amended (self : Subspannable) :
    (∀ (a b : Int) (lbl : Option String) (S : Subspannable),
      0 ≤ a → a ≤ b → b ≤ (self.text.length : Int) →
      subspan self (.slice ⟨some a, some b⟩) lbl = .ok S →
      checkSpanInvariant S = true) ∧
    (∀ (lbl : Option String) (S : Subspannable),
      subspan self (.slice ⟨none, none⟩) lbl = .ok S →
      checkSpanInvariant S = true) ∧
    (∀ (ws : PySlice) (S : Subspannable),
      subspanByWordIndices self ws = .ok S →
      checkSpanInvariant S = true) := by
  refine ⟨?_, ?_, fun ws S h => subspanByWordIndices_invariant self ws S h⟩
  · intro a b lbl S ha hab hb h
    rw [subspan_slice_eq] at h
    injection h with h
    subst h
    simp only [checkSpanInvariant, Bool.and_eq_true, decide_eq_true_eq]
    exact ⟨⟨ha, hab⟩, hb⟩
  · intro lbl S h
    simp only [subspan, NESpan.init, Except.ok.injEq] at h
    subst h
    simp [checkSpanInvariant, pyOrZero]

theorem C4_invariant_amended_witness :
    checkSpanInvariant (.span (.doc ['a','b','c']) 1 2 none) = true ∧
    checkSpanInvariant (.span (.doc ['a','b',' ','c','d']) 3 5 none) = true := by
  constructor
  · exact (C4_invariant_amended (.doc ['a','b','c'])).1 1 2 none
      (.span (.doc ['a','b','c']) 1 2 none) (by decide) (by decide) (by decide)
      (subspan_slice_eq _ 1 2 none)
  · exact (C4_invariant_amended (.doc ['a','b',' ','c','d'])).2.2 ⟨some 1, some 2⟩
      (.span (.doc ['a','b',' ','c','d']) 3 5 none) rfl

end NeSpanModel
